import Mathlib

/-!
Verification of the hyper HTTP/1 protocol engine (rotor-based branch).

This file is a shallow embedding of the per-connection HTTP/1 state
machine: the body encoder (src/http/h1/encode.rs), the server-role head
parsing and decoder selection (src/http/h1/parse.rs), the keep-alive rule
(src/http/mod.rs) and the connection state machine, interest computation
and read/write callbacks (src/http/conn.rs).

External collaborators (the transport, the reactor, the user handler, the
httparse crate and Display-based head serialization) are passed in as
function parameters, which is how the Rust code receives them (trait
objects / generic parameters).  Bytes are modelled as Nat, machine
integers as Nat (no arithmetic in the embedded code overflows usize/u64
on the inputs considered; Rust-side checked subtractions are noted where
they occur).  Fallible operations return Except; the panicking macros
unimplemented!/todo! that appear in this work-in-progress source are
modelled as explicit panic outcomes.

A handful of repository modules are referenced by the embedded code but
their files are not part of the source tree (src/http/buffer.rs,
src/http/h1/decode.rs, the header/method/version/error modules).  Those
are modelled from the specification and are marked as such.
-/

/-- Modelled from the spec: std io::ErrorKind values the engine
distinguishes (the error module of the repository is external std). -/
inductive IoErrKind
  | wouldBlock
  | interrupted
  | unexpectedEof
  | writeZero
  | otherKind
deriving DecidableEq, Repr

/-- Modelled from the spec: the crate-level error enum (lib.rs is absent
from the source tree); only the variants the embedded code constructs or
inspects are included: Error::Io, Error::TooLarge and a malformed-head
class for parser failures. -/
inductive HError
  | io (k : IoErrKind)
  | tooLarge
  | malformed
deriving DecidableEq, Repr

/-- Modelled from the spec: HttpVersion (version.rs is absent from the
source tree); the engine only distinguishes HTTP/1.0 and HTTP/1.1. -/
inductive HttpVersion
  | http10
  | http11
deriving DecidableEq, Repr

/-- Modelled from the spec: the request method enumeration (method.rs is
absent from the source tree); the embedded code only compares against
Get and Head, other methods are represented by the remaining
constructors. -/
inductive Method
  | get
  | head
  | post
  | put
  | delete
  | connect
  | options
  | trace'
  | patch
  | extensionM (s : String)
deriving DecidableEq, Repr

/-- Modelled from the spec: a Connection header option (the header module
is absent from the source tree); should_keep_alive tests membership of
KeepAlive and Close. -/
inductive ConnectionOption
  | keepAlive
  | close
  | connectionHeader (s : String)
deriving DecidableEq, BEq, Repr

/-- Modelled from the spec: a transfer-coding value for the
Transfer-Encoding header (header module absent from the source tree). -/
inductive TEnc
  | chunked
  | otherEnc (s : String)
deriving DecidableEq, Repr

/-- Modelled from the spec: the typed view of the header multi-map that
the embedded code reads and writes (header module absent from the source
tree): Connection options, a typed Content-Length, the Transfer-Encoding
codings list, and presence of a Date header (the date value itself is
supplied by an external clock and never inspected). -/
structure Headers where
  connection : Option (List ConnectionOption)
  contentLength : Option Nat
  transferEncoding : Option (List TEnc)
  hasDate : Bool
deriving DecidableEq, Repr

/-- should_keep_alive from src/http/mod.rs lines 203-212, transcribed
match arm for match arm (guard failure falls through to the catch-all
true arm exactly as in Rust). -/
def should_keep_alive (version : HttpVersion) (headers : Headers) : Bool :=
  match version, headers.connection with
  | .http10, none => false
  | .http10, some conn => if !(conn.contains ConnectionOption.keepAlive) then false else true
  | .http11, some conn => if conn.contains ConnectionOption.close then false else true
  | .http11, none => true

/-- MessageHead from src/http/mod.rs: version, subject and headers. -/
structure MessageHead (S : Type) where
  version : HttpVersion
  subject : S
  headers : Headers
deriving DecidableEq, Repr

/-- MessageHead::should_keep_alive (src/http/mod.rs lines 159-163) just
forwards to the free function; call sites below inline that forwarding
and apply should_keep_alive to the head's version and headers. -/
def headKeepAlive (h : MessageHead S) : Bool :=
  should_keep_alive h.version h.headers

/-- RawStatus from src/http/mod.rs: status code and reason phrase. -/
structure RawStatus where
  code : Nat
  reason : String
deriving DecidableEq, Repr

/-- Incoming subject of a server-role message: (Method, RequestUri), from
src/http/h1/parse.rs (RequestUri kept abstract as its textual form). -/
abbrev ReqHead := MessageHead (Method × String)

/-- Outgoing subject of a server-role message. -/
abbrev RespHead := MessageHead RawStatus

/-- WriteBuf from src/http/mod.rs (internal module): a byte buffer with a
cursor of how much has already been written. -/
structure WriteBuf where
  bytes : List Nat
  pos : Nat
deriving DecidableEq, Repr

/-- ChunkSize from src/http/h1/encode.rs lines 145-163: the hex rendering
of a chunk size (the Rust fixed array is represented by the list of hex
digit bytes actually written, tracked by len) with a write cursor pos. -/
structure ChunkSize where
  bytes : List Nat
  pos : Nat
  len : Nat
deriving DecidableEq, Repr

/-- ChunkSize::update from src/http/h1/encode.rs lines 152-162: consume n
written bytes; returns the bytes left over beyond this piece. -/
def ChunkSize.update (s : ChunkSize) (n : Nat) : ChunkSize × Nat :=
  let diff := s.len - s.pos
  if diff ≤ n then ({ s with pos := 0, len := 0 }, n - diff)
  else ({ s with pos := s.pos + n }, 0)

/-- Chunked from src/http/h1/encode.rs lines 126-134: the resumption
state of a partially written chunk header (the data/newline states are
commented out in the source). -/
inductive Chunked
  | initC
  | size (s : ChunkSize)
  | sizeNewline (b : Bool)
deriving DecidableEq, Repr

/-- Kind from src/http/h1/encode.rs lines 33-41. -/
inductive Kind
  | chunked (c : Chunked)
  | length (remaining : Nat)
deriving DecidableEq, Repr

/-- Encoder from src/http/h1/encode.rs lines 7-11; the prefix field (the
serialized head pending an atomic write with the first body bytes) is
named pfx here. -/
structure Encoder where
  kind : Kind
  pfx : Option WriteBuf
deriving DecidableEq, Repr

/-- Encoder::chunked from src/http/h1/encode.rs lines 14-19. -/
def Encoder.chunked : Encoder := ⟨.chunked .initC, none⟩

/-- Encoder::length from src/http/h1/encode.rs lines 21-26. -/
def Encoder.length (len : Nat) : Encoder := ⟨.length len, none⟩

/-- Encoder::prefix (the setter) from src/http/h1/encode.rs lines 28-30. -/
def Encoder.setPfx (e : Encoder) (w : WriteBuf) : Encoder := { e with pfx := some w }

/-- Encoder::is_eof from src/http/h1/encode.rs lines 44-53: false while a
prefix is pending, then true exactly for Length(0). -/
def Encoder.is_eof (e : Encoder) : Bool :=
  if e.pfx.isSome then false
  else
    match e.kind with
    | .length 0 => true
    | _ => false

/-- Prefix::update from src/http/h1/encode.rs lines 210-225: consume n
written bytes into the pending prefix; returns the bytes left over. -/
def pfxUpdate : Option WriteBuf → Nat → Option WriteBuf × Nat
  | some buf, n =>
    if n < buf.bytes.length - buf.pos then (some { buf with pos := buf.pos + n }, 0)
    else (none, n - (buf.bytes.length - buf.pos))
  | none, n => (none, n)

/-- The still-unwritten slice of the pending prefix, as the encode
methods compute it (buf.bytes[buf.pos..], or empty when none). -/
def pfxRemainder : Option WriteBuf → List Nat
  | some b => b.bytes.drop b.pos
  | none => []

/-- One uppercase hex digit as its ASCII byte. -/
def hexDigitChar (d : Nat) : Nat := if d < 10 then 48 + d else 55 + d

/-- Fuel-indexed digit accumulation for the write!("{:X}", n) rendering
(most significant digit first, no leading zeros); fuel n is always
enough since a number has at most as many hex digits as its value. -/
def hexDigitsAux : Nat → Nat → List Nat
  | 0, _ => []
  | _ + 1, 0 => []
  | fuel + 1, n + 1 => hexDigitsAux fuel ((n + 1) / 16) ++ [hexDigitChar ((n + 1) % 16)]

/-- The bytes write!("{:X}", n) produces: uppercase hex, and the single
digit 0 for zero. -/
def hexUpper (n : Nat) : List Nat := if n = 0 then [48] else hexDigitsAux n n

/-- Outcome of Encoder::encode: an Ok byte count with the updated
encoder, an io error kind with the updated encoder, or the
unimplemented! panic the chunked arm reaches once the transport has
accepted the whole size line (the carried Nat is the count the source
would have passed to the unimplemented! message). -/
inductive EncodeResult
  | ok (n : Nat) (e : Encoder)
  | err (k : IoErrKind) (e : Encoder)
  | panicked (n : Nat)
deriving DecidableEq, Repr

/-- The piece list the chunked arm of Encoder::encode submits to
write_atomic (src/http/h1/encode.rs lines 67-77): pending prefix, hex
size, CRLF, payload, CRLF. -/
def chunkPieces (p : Option WriteBuf) (msg : List Nat) : List (List Nat) :=
  let size : ChunkSize := ⟨hexUpper msg.length, 0, (hexUpper msg.length).length⟩
  [pfxRemainder p, (size.bytes.take size.len).drop size.pos, [13, 10], msg, [13, 10]]

/-- Encoder::encode from src/http/h1/encode.rs lines 55-123, transcribed
arm for arm.  The transport's write_atomic is the parameter w, mapping
the submitted piece list to the io result the transport returns (the
number of bytes it accepted, or an error).  The chunked arm builds a
fresh size rendering on every call exactly as the source does, updates
prefix and size cursors against the accepted count, stores the
resumption state, and reaches unimplemented! whenever more than the size
line was accepted; the length arm caps the payload at the remaining
count, flushes the prefix first, and subtracts the accepted body bytes
from remaining (the Rust u64 subtraction cannot underflow for a
transport that accepts at most what was submitted). -/
def Encoder.encode (e : Encoder) (w : List (List Nat) → Except IoErrKind Nat)
    (msg : List Nat) : EncodeResult :=
  match e.kind with
  | .chunked _ =>
    let size : ChunkSize := ⟨hexUpper msg.length, 0, (hexUpper msg.length).length⟩
    match w (chunkPieces e.pfx msg) with
    | .error k => .err k e
    | .ok n0 =>
      let pu := pfxUpdate e.pfx n0
      if pu.2 = 0 then .err .wouldBlock ⟨e.kind, pu.1⟩
      else
        let su := size.update pu.2
        if su.2 = 0 then
          let ch := if su.1.len = 0 then Chunked.sizeNewline false else Chunked.size su.1
          .err .wouldBlock ⟨.chunked ch, pu.1⟩
        else if su.2 = 1 then .err .wouldBlock ⟨.chunked (.sizeNewline true), pu.1⟩
        else .panicked (su.2 - 2)
  | .length remaining =>
    let maxLen := min remaining msg.length
    let slice := msg.take maxLen
    match w [pfxRemainder e.pfx, slice] with
    | .error k => .err k e
    | .ok n0 =>
      let pu := pfxUpdate e.pfx n0
      if pu.2 = 0 then .err .wouldBlock ⟨e.kind, pu.1⟩
      else .ok pu.2 ⟨.length (remaining - pu.2), pu.1⟩

/-- A transport whose write_atomic accepts every submitted byte. -/
def acceptAll (ps : List (List Nat)) : Except IoErrKind Nat :=
  .ok (ps.foldr (fun p a => p.length + a) 0)

/-- Modelled from the spec: the chunked decoder sub-state machine
(src/http/h1/decode.rs is absent from the source tree); spec section 3
lists sub-states Size, SizeLF, Extension, Body(n), BodyCR, BodyLF,
TrailerCR, TrailerLF, End, with the terminator-consumed state End being
the EOF state. -/
inductive ChunkedState
  | size
  | sizeLf
  | extensionS
  | body (n : Nat)
  | bodyCr
  | bodyLf
  | trailerCr
  | trailerLf
  | done
deriving DecidableEq, Repr

/-- Modelled from the spec: h1::Decoder (src/http/h1/decode.rs is absent
from the source tree).  Only the variants the in-tree code constructs
are included: parse.rs builds Decoder::Length and Decoder::Chunked(None)
(None being the not-yet-started sub-state). -/
inductive Decoder
  | length (remaining : Nat)
  | chunked (state : Option ChunkedState)
deriving DecidableEq, Repr

/-- Modelled from the spec: Decoder::is_eof (decode.rs absent); spec
section 4.3: Length is at EOF when the remaining count is 0, Chunked
when the terminator has been consumed. -/
def Decoder.is_eof : Decoder → Bool
  | .length 0 => true
  | .length _ => false
  | .chunked (some .done) => true
  | .chunked _ => false

/-- Outcome of ServerMessage::decoder: the Rust signature is a Result,
and the Transfer-Encoding arm runs the todo! macro (a panic) before its
unreachable Ok(Decoder::Chunked(None)). -/
inductive DecoderRet
  | ok (d : Decoder)
  | err (e : HError)
  | panicked
deriving DecidableEq, Repr

/-- ServerMessage::decoder from src/http/h1/parse.rs lines 68-81: GET and
HEAD get a zero-length decoder; otherwise a typed Content-Length picks a
Length decoder; otherwise a present Transfer-Encoding header reaches
todo! (panics); otherwise a zero-length decoder.  No arm constructs an
Err. -/
def ServerMessage.decoder (head : ReqHead) : DecoderRet :=
  if head.subject.1 = Method.get ∨ head.subject.1 = Method.head then
    .ok (.length 0)
  else
    match head.headers.contentLength with
    | some len => .ok (.length len)
    | none =>
      if head.headers.transferEncoding.isSome then .panicked
      else .ok (.length 0)

/-- ServerMessage::encode from src/http/h1/parse.rs lines 84-122: insert
a Date header when absent, then pick the body encoder: a typed
Content-Length gives a Length encoder, otherwise the encoder is chunked
and Transfer-Encoding: chunked is appended to the headers (pushed onto
an existing Transfer-Encoding list, or set fresh).  Returns the mutated
head together with the encoder; the Display-serialization of the head
into the dst buffer is performed by the caller-supplied serialize
function in the connection embedding below. -/
def ServerMessage.encode (head : RespHead) : RespHead × Encoder :=
  let head := if head.headers.hasDate then head
    else { head with headers := { head.headers with hasDate := true } }
  match head.headers.contentLength with
  | some cl => (head, Encoder.length cl)
  | none =>
    let te := match head.headers.transferEncoding with
      | some encodings => some (encodings ++ [TEnc.chunked])
      | none => some [TEnc.chunked]
    ({ head with headers := { head.headers with transferEncoding := te } }, Encoder.chunked)

/-- Next_ from src/http/conn.rs lines 632-640: the handler directive (the
public Next wrapper also carries an optional timeout, which no embedded
code path inspects, so the directive alone is carried). -/
inductive Next_
  | read
  | write
  | readWrite
  | wait
  | end_
  | remove
deriving DecidableEq, Repr

/-- Reg from src/http/conn.rs lines 642-649: the reactor-facing interest. -/
inductive Reg
  | read
  | write
  | readWrite
  | wait
  | remove
deriving DecidableEq, Repr

/-- Next::interest from src/http/conn.rs lines 659-668. -/
def Next_.interest : Next_ → Reg
  | .read => .read
  | .write => .write
  | .readWrite => .readWrite
  | .wait => .wait
  | .end_ => .remove
  | .remove => .remove

/-- ServerMessage's initial_interest from src/http/h1/parse.rs lines
44-46: a server reads first. -/
def ServerMessage.initial_interest : Next_ := .read

/-- ClientMessage's initial_interest from src/http/h1/parse.rs lines
130-132: a client writes first. -/
def ClientMessage.initial_interest : Next_ := .write

/-- Modelled from the spec: the inbound Buffer (src/http/buffer.rs is
absent from the source tree); spec section 4.1: a growable byte
container holding the unread inbound bytes, with read_from appending
from the transport (0 appended means EOF), consume dropping a parsed
head, and len/is_empty observers. -/
structure Buffer where
  bytes : List Nat
deriving DecidableEq, Repr

/-- Modelled from the spec: Buffer::read_from (buffer.rs absent); the
transport read outcome r is the byte list the transport produced (empty
at EOF) or an io error, which read_from propagates without appending. -/
def Buffer.read_from (b : Buffer) (r : Except IoErrKind (List Nat)) :
    Except IoErrKind (Nat × Buffer) :=
  match r with
  | .error e => .error e
  | .ok bs => .ok (bs.length, ⟨b.bytes ++ bs⟩)

/-- Modelled from the spec: Buffer::consume (buffer.rs absent). -/
def Buffer.consume (b : Buffer) (n : Nat) : Buffer := ⟨b.bytes.drop n⟩

/-- Modelled from the spec: Buffer::len (buffer.rs absent). -/
def Buffer.len (b : Buffer) : Nat := b.bytes.length

/-- Modelled from the spec: Buffer::is_empty (buffer.rs absent). -/
def Buffer.is_empty (b : Buffer) : Bool := b.bytes.isEmpty

/-- MAX_BUFFER_SIZE from src/http/conn.rs line 15. -/
def MAX_BUFFER_SIZE : Nat := 8192 + 4096 * 100

/-- Chunk from src/http/conn.rs lines 590-595: a buffered serialized
head, the write cursor into it, and the encoder plus cloned Next to
resume with once the head is flushed. -/
structure Chunk where
  buf : List Nat
  pos : Nat
  nextEnc : Encoder
  nextNext : Next_
deriving DecidableEq, Repr

/-- Chunk::is_written from src/http/conn.rs lines 597-601. -/
def Chunk.is_written (c : Chunk) : Bool := decide (c.buf.length ≤ c.pos)

/-- Reading from src/http/conn.rs lines 569-577. -/
inductive Reading
  | initR
  | parse
  | body (d : Decoder)
  | wait (d : Decoder)
  | keepAlive
  | closed
deriving DecidableEq, Repr

/-- Writing from src/http/conn.rs lines 579-588. -/
inductive Writing
  | initW
  | head
  | chunk (c : Chunk)
  | ready (e : Encoder)
  | wait (e : Encoder)
  | keepAlive
  | closed
deriving DecidableEq, Repr

/-- Http1 from src/http/conn.rs lines 551-557, minus the handler object
(handler behavior is supplied externally by the environment of each
callback, and no transition inspects the handler value) and the
PhantomData marker. -/
structure Http1S where
  reading : Reading
  writing : Writing
  keep_alive : Bool
deriving DecidableEq, Repr

/-- State from src/http/conn.rs lines 429-442. -/
inductive State
  | initS
  | http1 (h : Http1S)
  | closed
deriving DecidableEq, Repr

/-- State::update from src/http/conn.rs lines 456-547, transcribed arm
for arm in source order: Remove always closes; Closed is absorbing; Init
stays Init; End recycles to Init only from KeepAlive/KeepAlive, from
KeepAlive with a drained Ready encoder, or from a drained Body decoder
with KeepAlive writing, and otherwise closes; Read and Write adjust
their own side and park or recycle the opposite side when its
decoder/encoder is at EOF; Wait leaves the state untouched. -/
def State.update (s : State) (next : Next_) : State :=
  match s, next with
  | _, .remove => .closed
  | .closed, _ => .closed
  | .initS, _ => .initS
  | .http1 h, .end_ =>
    match h.reading, h.writing with
    | .keepAlive, .keepAlive => .initS
    | .keepAlive, .ready encoder => if encoder.is_eof then .initS else .closed
    | .body decoder, .keepAlive => if decoder.is_eof then .initS else .closed
    | _, _ => .closed
  | .http1 h, .read =>
    let reading := match h.reading with
      | .initR => Reading.parse
      | .wait decoder => Reading.body decoder
      | same => same
    let writing := match h.writing with
      | .ready encoder =>
        if encoder.is_eof then
          if h.keep_alive then Writing.keepAlive else Writing.closed
        else Writing.wait encoder
      | .chunk c => if c.is_written then Writing.wait c.nextEnc else Writing.chunk c
      | same => same
    .http1 { h with reading := reading, writing := writing }
  | .http1 h, .write =>
    let writing := match h.writing with
      | .wait encoder => Writing.ready encoder
      | .initW => Writing.head
      | .chunk c => if c.is_written then Writing.ready c.nextEnc else Writing.chunk c
      | same => same
    let reading := match h.reading with
      | .body decoder =>
        if decoder.is_eof then
          if h.keep_alive then Reading.keepAlive else Reading.closed
        else Reading.wait decoder
      | same => same
    .http1 { h with reading := reading, writing := writing }
  | .http1 h, .readWrite =>
    let reading := match h.reading with
      | .initR => Reading.parse
      | .wait decoder => Reading.body decoder
      | same => same
    let writing := match h.writing with
      | .wait encoder => Writing.ready encoder
      | .initW => Writing.head
      | .chunk c => if c.is_written then Writing.ready c.nextEnc else Writing.chunk c
      | same => same
    .http1 { h with reading := reading, writing := writing }
  | s, .wait => s

/-- Conn::interest from src/http/conn.rs lines 39-78, with the message
type's initial_interest().interest() supplied as the parameter ii (Read
for the server role, Write for the client role).  The rule: Closed state
or both sides Closed report Remove; otherwise the read side wants Read
in Parse or Body and the write side wants Write in Head, Chunk or Ready,
and the two wishes combine (the combinations the source marks
unreachable! cannot arise from the two inner matches and are mapped to
Wait). -/
def Conn.interest (ii : Reg) (s : State) : Reg :=
  match s with
  | .closed => .remove
  | .initS => ii
  | .http1 ⟨reading, writing, _⟩ =>
    if reading = Reading.closed ∧ writing = Writing.closed then .remove
    else
    let r := match reading with
      | .parse | .body _ => Reg.read
      | .initR | .wait _ | .keepAlive | .closed => Reg.wait
    let w := match writing with
      | .head | .chunk _ | .ready _ => Reg.write
      | .initW | .wait _ | .keepAlive => Reg.wait
      | .closed => Reg.wait
    match r, w with
    | .read, .write => .readWrite
    | .read, .wait => .read
    | .wait, .write => .write
    | .wait, .wait => .wait
    | _, _ => .wait

/-- The environment a readable callback runs against: the successive
transport read results (indexed by how many reads have happened), the
external httparse-backed ServerMessage::parse on a byte slice, the
handler's on_incoming, and the handler's on_decode (which reads body
bytes through the decoder wrapping the buffered bytes and the transport,
hence returns the directive together with the mutated decoder and
buffer). -/
structure ReadEnv where
  reads : Nat → Except IoErrKind (List Nat)
  rawParse : List Nat → Except HError (Option (ReqHead × Nat))
  onIncoming : ReqHead → Next_
  onDecode : Decoder → Buffer → Next_ × Decoder × Buffer

/-- http::parse / h1::parse from src/http/mod.rs line 215 and
src/http/h1/parse.rs lines 30-36: an empty slice is an incomplete
parse, otherwise the message-type parser runs. -/
def httpParse (rawParse : List Nat → Except HError (Option (ReqHead × Nat)))
    (bs : List Nat) : Except HError (Option (ReqHead × Nat)) :=
  if bs.length = 0 then .ok none else rawParse bs

/-- Conn::parse from src/http/conn.rs lines 80-102: read from the
transport into the buffer (k indexes which transport read this is); a
0-byte read is an UnexpectedEof error; a complete parse consumes the
head's bytes and yields the head; an incomplete parse is TooLarge once
the buffer has reached MAX_BUFFER_SIZE and otherwise a synthesized
WouldBlock.  Returns the result together with the (possibly grown)
buffer, since the Rust method mutates self.buf in place. -/
def Conn.parse (env : ReadEnv) (k : Nat) (buf : Buffer) :
    Except HError ReqHead × Buffer :=
  match Buffer.read_from buf (env.reads k) with
  | .error e => (.error (.io e), buf)
  | .ok (n, buf') =>
    if n = 0 then (.error (.io .unexpectedEof), buf')
    else
      match httpParse env.rawParse buf'.bytes with
      | .error e => (.error e, buf')
      | .ok (some (head, len)) => (.ok head, buf'.consume len)
      | .ok none =>
        if MAX_BUFFER_SIZE ≤ buf'.len then (.error .tooLarge, buf')
        else (.error (.io .wouldBlock), buf')

/-- Outcome of a readable callback: the resulting state and buffer, the
panic outcome for the unimplemented!/todo! paths, or fuel exhaustion of
the embedding's recursion bound (the source recursion is unbounded; the
claims below are all settled on paths that do not consume fuel). -/
inductive ReadOut
  | out (s : State) (buf : Buffer)
  | panicked
  | fuelOut
deriving Repr

/-- Conn::read from src/http/conn.rs lines 104-249 (server role),
transcribed branch for branch.  From Init: parse; WouldBlock and
Interrupted io errors return Init, other errors close; on a head,
build the decoder (the todo! in the Transfer-Encoding arm panics, an
Err closes), derive keep_alive from the head, ask the handler, and
follow the directive (Read and ReadWrite recurse into the new Http1
state, End and Remove close).  From Http1: Reading::Init does nothing;
Reading::Parse parses as above but narrows keep_alive with the new
head's wish and parks the new decoder in Wait; Reading::Body hands the
decoder to on_decode; the remaining reading states are unimplemented!
(panic).  The optional directive then drives State::update, and the
callback re-enters itself while the state is a Body whose decoder is at
EOF. -/
def Conn.read (env : ReadEnv) : Nat → Nat → Buffer → State → ReadOut
  | 0, _, _, _ => .fuelOut
  | fuel + 1, k, buf, .initS =>
    match Conn.parse env k buf with
    | (.error (.io .wouldBlock), buf') => .out .initS buf'
    | (.error (.io .interrupted), buf') => .out .initS buf'
    | (.error _, buf') => .out .closed buf'
    | (.ok head, buf') =>
      match ServerMessage.decoder head with
      | .panicked => .panicked
      | .err _ => .out .closed buf'
      | .ok decoder =>
        let keep_alive := should_keep_alive head.version head.headers
        match env.onIncoming head with
        | .read =>
          Conn.read env fuel (k + 1) buf' (.http1 ⟨.body decoder, .initW, keep_alive⟩)
        | .write =>
          .out (.http1 ⟨if decoder.is_eof then
              (if keep_alive then .keepAlive else .closed)
            else .wait decoder, .head, keep_alive⟩) buf'
        | .readWrite =>
          Conn.read env fuel (k + 1) buf' (.http1 ⟨.body decoder, .head, keep_alive⟩)
        | .wait => .out (.http1 ⟨.wait decoder, .initW, keep_alive⟩) buf'
        | .end_ => .out .closed buf'
        | .remove => .out .closed buf'
  | fuel + 1, k, buf, .http1 h =>
    match h.reading with
    | .initR =>
      let s := State.http1 h
      let again := match s with
        | .http1 ⟨.body decoder, _, _⟩ => decoder.is_eof
        | _ => false
      if again then Conn.read env fuel (k + 1) buf s else .out s buf
    | .parse =>
      match Conn.parse env k buf with
      | (.ok head, buf') =>
        match ServerMessage.decoder head with
        | .panicked => .panicked
        | .err _ => .out .closed buf'
        | .ok decoder =>
          let ka := if h.keep_alive then should_keep_alive head.version head.headers
            else h.keep_alive
          let nx := env.onIncoming head
          let s := State.update (.http1 { h with keep_alive := ka, reading := .wait decoder }) nx
          let again := match s with
            | .http1 ⟨.body d, _, _⟩ => d.is_eof
            | _ => false
          if again then Conn.read env fuel (k + 1) buf' s else .out s buf'
      | (.error (.io .wouldBlock), buf') =>
        let s := State.http1 h
        let again := match s with
          | .http1 ⟨.body decoder, _, _⟩ => decoder.is_eof
          | _ => false
        if again then Conn.read env fuel (k + 1) buf' s else .out s buf'
      | (.error (.io .interrupted), buf') =>
        let s := State.http1 h
        let again := match s with
          | .http1 ⟨.body decoder, _, _⟩ => decoder.is_eof
          | _ => false
        if again then Conn.read env fuel (k + 1) buf' s else .out s buf'
      | (.error _, buf') => .out .closed buf'
    | .body d =>
      let r := env.onDecode d buf
      let s := State.update (.http1 { h with reading := .body r.2.1 }) r.1
      let again := match s with
        | .http1 ⟨.body decoder, _, _⟩ => decoder.is_eof
        | _ => false
      if again then Conn.read env fuel (k + 1) r.2.2 s else .out s r.2.2
    | .wait _ => .panicked
    | .keepAlive => .panicked
    | .closed => .panicked
  | _ + 1, _, buf, .closed => .out .closed buf

/-- The environment a writable callback runs against: the handler's
on_outgoing (the head it fills into the default MessageHead plus its
directive), the transport's plain write, the handler's on_encode (which
writes through the encoder to the transport, hence returns the mutated
encoder with its directive), and the external Display-serialization of
a head into bytes (the write! of version, subject and headers that
ServerMessage::encode performs into its dst buffer). -/
structure WriteEnv where
  onOutgoing : RespHead × Next_
  writeT : List Nat → Except IoErrKind Nat
  onEncode : Encoder → Encoder × Next_
  serialize : RespHead → List Nat

/-- Outcome of a writable callback: the resulting state, or the panic of
the unimplemented! in the Writing::Init arm. -/
inductive WriteOut
  | out (s : State)
  | panicked
deriving Repr

/-- Conn::write from src/http/conn.rs lines 251-375 (server role),
transcribed branch for branch.  From Init: ask the handler for the
outgoing head; if it is HTTP/1.1, derive keep_alive, encode the head
(ServerMessage::encode) into a buffer, and either move the buffer into
the encoder's prefix (directive Write/ReadWrite, state Ready) or park it
as a Chunk holding the encoder and the cloned directive; then apply the
directive.  From Http1: Writing::Init is unimplemented! (panic);
Writing::Head does the same head write, narrowing keep_alive with the
response's wish first; Writing::Chunk writes the buffered head to the
transport, advancing the cursor, resuming the stored directive once
fully written, treating WouldBlock/Interrupted as no-ops and other io
errors as Closed; Writing::Ready hands the encoder to on_encode; the
Wait, KeepAlive and Closed arms do nothing.  A Closed state stays
Closed. -/
def Conn.write (env : WriteEnv) (state : State) : WriteOut :=
  match state with
  | .initS =>
    let ho := env.onOutgoing
    let state' :=
      if ho.1.version = HttpVersion.http11 then
        let keep_alive := should_keep_alive ho.1.version ho.1.headers
        let he := ServerMessage.encode ho.1
        let bytes := env.serialize he.1
        let writing := match ho.2 with
          | .write | .readWrite => Writing.ready (he.2.setPfx ⟨bytes, 0⟩)
          | _ => Writing.chunk ⟨bytes, 0, he.2, ho.2⟩
        State.http1 ⟨.initR, writing, keep_alive⟩
      else State.initS
    .out (state'.update ho.2)
  | .http1 h =>
    match h.writing with
    | .initW => .panicked
    | .head =>
      let ho := env.onOutgoing
      let ka := if h.keep_alive then should_keep_alive ho.1.version ho.1.headers
        else h.keep_alive
      let he := ServerMessage.encode ho.1
      let bytes := env.serialize he.1
      let writing := match ho.2 with
        | .write | .readWrite => Writing.ready (he.2.setPfx ⟨bytes, 0⟩)
        | _ => Writing.chunk ⟨bytes, 0, he.2, ho.2⟩
      .out ((State.http1 { h with writing := writing, keep_alive := ka }).update ho.2)
    | .chunk c =>
      match env.writeT (c.buf.drop c.pos) with
      | .ok n =>
        let c' := { c with pos := c.pos + n }
        if c'.is_written then
          .out ((State.http1 { h with writing := .chunk c' }).update c'.nextNext)
        else .out (State.http1 { h with writing := .chunk c' })
      | .error .wouldBlock => .out (State.http1 h)
      | .error .interrupted => .out (State.http1 h)
      | .error _ => .out State.closed
    | .ready e =>
      let r := env.onEncode e
      .out ((State.http1 { h with writing := .ready r.1 }).update r.2)
    | .wait _ => .out (State.http1 h)
    | .keepAlive => .out (State.http1 h)
    | .closed => .out (State.http1 h)
  | .closed => .out .closed

/-- C9: for every Encoder, is_eof() returns true if and only if no prefix
is pending and the kind is Length with exactly 0 remaining; in
particular a Chunked encoder never reports is_eof() true, in any state. -/
theorem encoder_is_eof_iff :
    (∀ e : Encoder, e.is_eof = true ↔ (e.pfx = none ∧ e.kind = .length 0))
    ∧ (∀ (c : Chunked) (p : Option WriteBuf),
        Encoder.is_eof ⟨Kind.chunked c, p⟩ = false) := by
  constructor
  · rintro ⟨k, p⟩
    cases p <;> rcases k with c | n <;> simp [Encoder.is_eof]
    cases n <;> simp
  · intro c p
    cases p <;> simp [Encoder.is_eof]

/-- C3 (failing behavior): a single chunked encode call does submit the
five pieces prefix, HEX size, CRLF, payload, CRLF of exactly one chunk
(for the zero-length payload: "0", CRLF, CRLF), but whenever the
transport accepts the whole submission the function falls into
unimplemented! instead of returning Ok, and a chunked encoder's is_eof
is false in every state; the source's own test test_write_chunked_sync
expects the Ok outcomes and the terminal eof. -/
theorem chunked_encode_panics :
    chunkPieces none [] = [[], [48], [13, 10], [], [13, 10]]
    ∧ Encoder.encode Encoder.chunked acceptAll [] = .panicked 2
    ∧ Encoder.encode Encoder.chunked acceptAll [102, 111, 111, 32, 98, 97, 114]
        = .panicked 9
    ∧ Encoder.is_eof Encoder.chunked = false := by
  refine ⟨by decide, by decide, by decide, by decide⟩

/-- C7 (counterexample): a Length(0) encoder with a flushed prefix, fed a
non-empty payload over a transport that accepts everything submitted,
returns WouldBlock, not WriteZero. -/
theorem length_zero_encode_counterexample :
    Encoder.encode (Encoder.length 0) acceptAll [97]
        = .err .wouldBlock (Encoder.length 0)
    ∧ EncodeResult.err .wouldBlock (Encoder.length 0)
        ≠ .err .writeZero (Encoder.length 0) :=
  ⟨by decide, by decide⟩

/-- C7 (amended): once a Length encoder's remaining count is 0 and its
prefix is flushed, every further encode call truncates the payload to
nothing and returns a WouldBlock error (never WriteZero, which no path
of the function produces), for any payload and any transport, the
transport necessarily accepting 0 of the two empty submitted pieces. -/
theorem length_zero_encode_wouldblock
    (w : List (List Nat) → Except IoErrKind Nat) (msg : List Nat)
    (hw : w [[], []] = .ok 0) :
    Encoder.encode (Encoder.length 0) w msg = .err .wouldBlock (Encoder.length 0) := by
  simp [Encoder.encode, Encoder.length, pfxRemainder, pfxUpdate, hw]

/-- C7 witness: the amended statement at the concrete payload "a" over
the accept-everything transport. -/
theorem length_zero_encode_wouldblock_witness :
    acceptAll [[], []] = .ok 0
    ∧ Encoder.encode (Encoder.length 0) acceptAll [97, 98]
        = .err .wouldBlock (Encoder.length 0) :=
  ⟨rfl, length_zero_encode_wouldblock acceptAll [97, 98] rfl⟩

/-- State::update never changes the keep_alive flag of a surviving Http1
state: every arm either drops to Init/Closed or rebuilds the record with
the same keep_alive. -/
theorem State.update_keepAlive (h : Http1S) (nx : Next_) (h' : Http1S)
    (he : State.update (.http1 h) nx = .http1 h') : h'.keep_alive = h.keep_alive := by
  obtain ⟨r, w, ka⟩ := h
  cases nx <;> cases r <;> cases w <;>
    simp only [State.update, State.http1.injEq] at he <;>
    first
      | (rw [← he])
      | (split at he <;> first | (rw [← he]) | simp_all)
      | simp_all

/-- The keep_alive flag of a surviving Http1 outcome of a writable
callback, if any. -/
def WriteOut.keepAliveOf : WriteOut → Option Bool
  | .out (.http1 h) => some h.keep_alive
  | _ => none

/-- C4: should_keep_alive is true for HTTP/1.1 unless the Connection
header contains close, true for HTTP/1.0 exactly when the Connection
header contains keep-alive; and a server writable callback entering
Writing::Head leaves the connection's keep_alive flag equal to the
conjunction of the flag derived from the request with the response
head's own keep-alive wish (a false flag is never re-enabled), whenever
the connection survives as an Http1 state. -/
theorem keep_alive_rule :
    (∀ hs : Headers, should_keep_alive .http11 hs
        = !(match hs.connection with
            | some conn => conn.contains ConnectionOption.close
            | none => false))
    ∧ (∀ hs : Headers, should_keep_alive .http10 hs
        = (match hs.connection with
            | some conn => conn.contains ConnectionOption.keepAlive
            | none => false))
    ∧ (∀ (resp : RespHead) (i : Next_)
        (wt : List Nat → Except IoErrKind Nat) (oe : Encoder → Encoder × Next_)
        (sz : RespHead → List Nat) (r : Reading) (ka : Bool),
        (Conn.write ⟨(resp, i), wt, oe, sz⟩ (.http1 ⟨r, .head, ka⟩)).keepAliveOf.all
          (fun b => b = (ka && should_keep_alive resp.version resp.headers)) = true) := by
  refine ⟨?_, ?_, ?_⟩
  · intro hs
    rcases hc : hs.connection with _ | conn <;> simp [should_keep_alive, hc]
  · intro hs
    rcases hc : hs.connection with _ | conn <;> simp [should_keep_alive, hc]
  · intro resp i wt oe sz r ka
    simp only [Conn.write]
    rcases hu : State.update
        (.http1 ⟨r, (match i with
          | .write | .readWrite =>
            Writing.ready ((ServerMessage.encode resp).2.setPfx
              ⟨sz (ServerMessage.encode resp).1, 0⟩)
          | _ => Writing.chunk ⟨sz (ServerMessage.encode resp).1, 0,
              (ServerMessage.encode resp).2, i⟩),
          if ka then should_keep_alive resp.version resp.headers else ka⟩) i
      with _ | h' | _
    · simp [hu, WriteOut.keepAliveOf]
    · have hk := State.update_keepAlive _ _ _ hu
      simp [hu, WriteOut.keepAliveOf, hk]
      cases ka <;> simp
    · simp [hu, WriteOut.keepAliveOf]

/-- The claim's read-side table: the reading states that want Read
interest. -/
def readingWantsRead : Reading → Bool
  | .parse | .body _ => true
  | _ => false

/-- The claim's write-side table: the writing states that want Write
interest. -/
def writingWantsWrite : Writing → Bool
  | .head | .chunk _ | .ready _ => true
  | _ => false

/-- C6: for every Http1 state that is not double-Closed, the reported
interest is read iff reading is Parse or Body combined with write iff
writing is Head, Chunk or Ready (Wait when neither); and Remove is
reported exactly for the Closed connection state or for an Http1 state
with both sides Closed, for any role's initial interest. -/
theorem interest_table :
    (∀ (ii : Reg) (r : Reading) (w : Writing) (ka : Bool),
        ¬(r = .closed ∧ w = .closed) →
        Conn.interest ii (.http1 ⟨r, w, ka⟩)
          = (if readingWantsRead r then
               (if writingWantsWrite w then .readWrite else .read)
             else
               (if writingWantsWrite w then .write else .wait)))
    ∧ (∀ ii : Reg, Conn.interest ii .closed = .remove)
    ∧ (∀ (ii : Reg) (r : Reading) (w : Writing) (ka : Bool),
        Conn.interest ii (.http1 ⟨r, w, ka⟩) = .remove ↔ (r = .closed ∧ w = .closed)) := by
  refine ⟨?_, fun ii => rfl, ?_⟩
  · intro ii r w ka hne
    cases r <;> cases w <;>
      simp_all [Conn.interest, readingWantsRead, writingWantsWrite]
  · intro ii r w ka
    cases r <;> cases w <;>
      simp [Conn.interest, readingWantsRead, writingWantsWrite]

/-- C6 witness: the non-double-Closed statement at reading Parse and
writing Head, where the combined interest is ReadWrite. -/
theorem interest_table_witness :
    ¬(Reading.parse = Reading.closed ∧ Writing.head = Writing.closed)
    ∧ Conn.interest .read (.http1 ⟨.parse, .head, true⟩)
        = (if readingWantsRead .parse then
             (if writingWantsWrite .head then .readWrite else .read)
           else
             (if writingWantsWrite .head then .write else .wait)) :=
  ⟨by decide, interest_table.1 .read .parse .head true (by decide)⟩

/-- The decoder a reading state is holding, if any. -/
def Reading.decoderOf : Reading → Option Decoder
  | .body d => some d
  | .wait d => some d
  | _ => none

/-- The encoder a writing state is holding, if any (a Chunk holds the
encoder it will resume with). -/
def Writing.encoderOf : Writing → Option Encoder
  | .chunk c => some c.nextEnc
  | .ready e => some e
  | .wait e => some e
  | _ => none

/-- C5: whenever a Next::End directive recycles an Http1 state to Init
(rather than closing), every decoder held on the read side and every
encoder held on the write side is at EOF at that moment (the only
recycling shapes are KeepAlive/KeepAlive with no machine held, KeepAlive
with a drained Ready encoder, and a drained Body decoder with
KeepAlive). -/
theorem end_recycle_requires_eof (h : Http1S)
    (hrec : State.update (.http1 h) .end_ = .initS) :
    h.reading.decoderOf.all Decoder.is_eof = true
    ∧ h.writing.encoderOf.all Encoder.is_eof = true := by
  obtain ⟨r, w, ka⟩ := h
  cases r <;> cases w <;>
    simp_all [State.update, Reading.decoderOf, Writing.encoderOf]

/-- C5 witness: the statement at the KeepAlive/KeepAlive state, which
recycles and holds no decoder or encoder. -/
theorem end_recycle_requires_eof_witness :
    State.update (.http1 ⟨.keepAlive, .keepAlive, true⟩) .end_ = .initS
    ∧ ((Http1S.mk .keepAlive .keepAlive true).reading.decoderOf.all Decoder.is_eof = true
       ∧ (Http1S.mk .keepAlive .keepAlive true).writing.encoderOf.all Encoder.is_eof = true) :=
  ⟨by decide, end_recycle_requires_eof ⟨.keepAlive, .keepAlive, true⟩ (by decide)⟩

/-- A POST request head carrying both a Content-Length of 5 and a
Transfer-Encoding header. -/
def bothClTeHead : ReqHead :=
  ⟨.http11, (Method.post, "/submit"), ⟨none, some 5, some [TEnc.chunked], false⟩⟩

/-- C1 (counterexample): a request carrying both Content-Length and
Transfer-Encoding is not rejected as malformed; decoder construction
returns Ok with the Length decoder taken from the Content-Length (and
an Ok is not an Err of any kind, e.g. not the malformed one). -/
theorem decoder_both_cl_te_not_rejected :
    ServerMessage.decoder bothClTeHead = .ok (.length 5)
    ∧ DecoderRet.ok (.length 5) ≠ .err .malformed :=
  ⟨by decide, by decide⟩

/-- C1 (amended): the server decoder selection order is: GET or HEAD
gives the zero-length decoder Length(0) (which is immediately at EOF and
plays the spec's Empty); otherwise a present Content-Length gives
Length(that value) even when Transfer-Encoding is also present;
otherwise a present Transfer-Encoding reaches the todo! panic (the
intended Chunked decoder is unreachable); otherwise Length(0).  Decoder
construction never returns an error, so no request is rejected as
malformed by it. -/
theorem decoder_selection_amended :
    (∀ head : ReqHead, (head.subject.1 = Method.get ∨ head.subject.1 = Method.head) →
        ServerMessage.decoder head = .ok (.length 0))
    ∧ (∀ head : ReqHead, ¬(head.subject.1 = Method.get ∨ head.subject.1 = Method.head) →
        ∀ n, head.headers.contentLength = some n →
        ServerMessage.decoder head = .ok (.length n))
    ∧ (∀ head : ReqHead, ¬(head.subject.1 = Method.get ∨ head.subject.1 = Method.head) →
        head.headers.contentLength = none →
        head.headers.transferEncoding.isSome = true →
        ServerMessage.decoder head = .panicked)
    ∧ (∀ head : ReqHead, ¬(head.subject.1 = Method.get ∨ head.subject.1 = Method.head) →
        head.headers.contentLength = none →
        head.headers.transferEncoding = none →
        ServerMessage.decoder head = .ok (.length 0))
    ∧ (∀ (head : ReqHead) (e : HError), ServerMessage.decoder head ≠ .err e)
    ∧ Decoder.is_eof (.length 0) = true := by
  refine ⟨?_, ?_, ?_, ?_, ?_, rfl⟩
  · intro head hm
    simp [ServerMessage.decoder, hm]
  · intro head hm n hcl
    simp [ServerMessage.decoder, hm, hcl]
  · intro head hm hcl hte
    simp [ServerMessage.decoder, hm, hcl, hte]
  · intro head hm hcl hte
    simp [ServerMessage.decoder, hm, hcl, hte]
  · intro head e hc
    unfold ServerMessage.decoder at hc
    split at hc
    · simp at hc
    · rcases hcl : head.headers.contentLength with _ | n <;> rw [hcl] at hc <;> simp at hc
      split at hc <;> simp at hc

/-- C1 witness: the amended selection evaluated on four concrete heads:
a GET, a POST with Content-Length 7, a POST with only Transfer-Encoding
(the panic), and a POST with neither. -/
theorem decoder_selection_amended_witness :
    ServerMessage.decoder ⟨.http11, (Method.get, "/"), ⟨none, none, none, false⟩⟩
        = .ok (.length 0)
    ∧ ServerMessage.decoder ⟨.http11, (Method.post, "/"), ⟨none, some 7, none, false⟩⟩
        = .ok (.length 7)
    ∧ ServerMessage.decoder ⟨.http11, (Method.post, "/"), ⟨none, none, some [TEnc.chunked], false⟩⟩
        = .panicked
    ∧ ServerMessage.decoder ⟨.http11, (Method.post, "/"), ⟨none, none, none, false⟩⟩
        = .ok (.length 0) :=
  ⟨decoder_selection_amended.1 _ (by decide),
   decoder_selection_amended.2.1 _ (by decide) 7 rfl,
   decoder_selection_amended.2.2.1 _ (by decide) rfl rfl,
   decoder_selection_amended.2.2.2.1 _ (by decide) rfl rfl⟩

/-- C2: at each callback site where the engine itself sees a transport
WouldBlock or Interrupted (the parse path of a readable callback from
Init or from Reading::Parse, and the buffered-head write of a writable
callback in Writing::Chunk), the state and the buffered bytes after the
callback equal the state and buffer before it. -/
theorem wouldblock_preserves_state :
    (∀ (rds : Nat → Except IoErrKind (List Nat))
        (rp : List Nat → Except HError (Option (ReqHead × Nat)))
        (oi : ReqHead → Next_) (od : Decoder → Buffer → Next_ × Decoder × Buffer)
        (k fuel : Nat) (buf : Buffer) (e : IoErrKind),
        rds k = .error e → (e = .wouldBlock ∨ e = .interrupted) →
        Conn.read ⟨rds, rp, oi, od⟩ (fuel + 1) k buf .initS = .out .initS buf)
    ∧ (∀ (rds : Nat → Except IoErrKind (List Nat))
        (rp : List Nat → Except HError (Option (ReqHead × Nat)))
        (oi : ReqHead → Next_) (od : Decoder → Buffer → Next_ × Decoder × Buffer)
        (k fuel : Nat) (buf : Buffer) (w : Writing) (ka : Bool) (e : IoErrKind),
        rds k = .error e → (e = .wouldBlock ∨ e = .interrupted) →
        Conn.read ⟨rds, rp, oi, od⟩ (fuel + 1) k buf (.http1 ⟨.parse, w, ka⟩)
          = .out (.http1 ⟨.parse, w, ka⟩) buf)
    ∧ (∀ (ho : RespHead × Next_) (wt : List Nat → Except IoErrKind Nat)
        (oe : Encoder → Encoder × Next_) (sz : RespHead → List Nat)
        (r : Reading) (c : Chunk) (ka : Bool) (e : IoErrKind),
        wt (c.buf.drop c.pos) = .error e → (e = .wouldBlock ∨ e = .interrupted) →
        Conn.write ⟨ho, wt, oe, sz⟩ (.http1 ⟨r, .chunk c, ka⟩)
          = .out (.http1 ⟨r, .chunk c, ka⟩)) := by
  refine ⟨?_, ?_, ?_⟩
  · intro rds rp oi od k fuel buf e he hk
    rcases hk with rfl | rfl <;>
      simp [Conn.read, Conn.parse, Buffer.read_from, he]
  · intro rds rp oi od k fuel buf w ka e he hk
    rcases hk with rfl | rfl <;>
      simp [Conn.read, Conn.parse, Buffer.read_from, he]
  · intro ho wt oe sz r c ka e he hk
    rcases hk with rfl | rfl <;>
      simp [Conn.write, he]

/-- C2 witness: the three preserved-state equations at a concrete
environment whose transport read and write both fail with WouldBlock,
on a concrete buffer, Http1 parse state, and buffered head chunk. -/
theorem wouldblock_preserves_state_witness :
    ((fun _ : Nat => (Except.error .wouldBlock : Except IoErrKind (List Nat))) 0
        = .error .wouldBlock)
    ∧ Conn.read ⟨fun _ => .error .wouldBlock, fun _ => .ok none, fun _ => .wait,
          fun d b => (.wait, d, b)⟩ 1 0 ⟨[71]⟩ .initS = .out .initS ⟨[71]⟩
    ∧ Conn.read ⟨fun _ => .error .wouldBlock, fun _ => .ok none, fun _ => .wait,
          fun d b => (.wait, d, b)⟩ 1 0 ⟨[71]⟩ (.http1 ⟨.parse, .head, true⟩)
        = .out (.http1 ⟨.parse, .head, true⟩) ⟨[71]⟩
    ∧ Conn.write ⟨(⟨.http11, ⟨200, "OK"⟩, ⟨none, none, none, false⟩⟩, .wait),
          fun _ => .error .wouldBlock, fun enc => (enc, .wait), fun _ => []⟩
          (.http1 ⟨.initR, .chunk ⟨[72, 73], 0, Encoder.length 2, .write⟩, true⟩)
        = .out (.http1 ⟨.initR, .chunk ⟨[72, 73], 0, Encoder.length 2, .write⟩, true⟩) :=
  ⟨rfl,
   wouldblock_preserves_state.1 _ _ _ _ 0 0 ⟨[71]⟩ .wouldBlock rfl (Or.inl rfl),
   wouldblock_preserves_state.2.1 _ _ _ _ 0 0 ⟨[71]⟩ .head true .wouldBlock rfl (Or.inl rfl),
   wouldblock_preserves_state.2.2 _ _ _ _ .initR ⟨[72, 73], 0, Encoder.length 2, .write⟩
     true .wouldBlock rfl (Or.inl rfl)⟩

/-- C8: the hard cap is 8192 + 4096*100 bytes, and while a head is still
being parsed (the parser needs more bytes), a transport read that takes
the inbound buffer to the cap or beyond makes the parse attempt fail
with TooLarge and the readable callback close the connection, both from
the Init state and from the Reading::Parse state. -/
theorem buffer_cap_too_large_closes :
    MAX_BUFFER_SIZE = 8192 + 4096 * 100
    ∧ (∀ (rds : Nat → Except IoErrKind (List Nat))
        (rp : List Nat → Except HError (Option (ReqHead × Nat)))
        (oi : ReqHead → Next_) (od : Decoder → Buffer → Next_ × Decoder × Buffer)
        (k fuel : Nat) (buf : Buffer) (bs : List Nat) (w : Writing) (ka : Bool),
        rds k = .ok bs → bs ≠ [] → rp (buf.bytes ++ bs) = .ok none →
        MAX_BUFFER_SIZE ≤ (buf.bytes ++ bs).length →
        (Conn.parse ⟨rds, rp, oi, od⟩ k buf = (.error .tooLarge, ⟨buf.bytes ++ bs⟩)
         ∧ Conn.read ⟨rds, rp, oi, od⟩ (fuel + 1) k buf .initS
             = .out .closed ⟨buf.bytes ++ bs⟩
         ∧ Conn.read ⟨rds, rp, oi, od⟩ (fuel + 1) k buf (.http1 ⟨.parse, w, ka⟩)
             = .out .closed ⟨buf.bytes ++ bs⟩)) := by
  refine ⟨rfl, ?_⟩
  intro rds rp oi od k fuel buf bs w ka h1 h2 h3 h4
  have hlen : ¬(bs.length = 0) := by simpa using h2
  have hmax : 0 < MAX_BUFFER_SIZE := by decide
  have hne : ¬((buf.bytes ++ bs).length = 0) := by omega
  have h4' : MAX_BUFFER_SIZE ≤ buf.bytes.length + bs.length := by simpa using h4
  have hp : Conn.parse ⟨rds, rp, oi, od⟩ k buf = (.error .tooLarge, ⟨buf.bytes ++ bs⟩) := by
    simp [Conn.parse, Buffer.read_from, h1, hlen, httpParse, hne, h3, Buffer.len, h4']
  refine ⟨hp, ?_, ?_⟩
  · simp only [Conn.read]
    rw [hp]
  · simp only [Conn.read]
    rw [hp]

/-- C10: whenever the engine attempts to parse a head and the transport
read returns 0 bytes (EOF), the parse attempt fails with UnexpectedEof
and the readable callback closes the connection, for every buffer
content and every head parser, in particular even when the buffered
bytes already form a complete head. -/
theorem parse_eof_closes :
    ∀ (rds : Nat → Except IoErrKind (List Nat))
      (rp : List Nat → Except HError (Option (ReqHead × Nat)))
      (oi : ReqHead → Next_) (od : Decoder → Buffer → Next_ × Decoder × Buffer)
      (k fuel : Nat) (buf : Buffer) (w : Writing) (ka : Bool),
      rds k = .ok [] →
      (Conn.parse ⟨rds, rp, oi, od⟩ k buf = (.error (.io .unexpectedEof), buf)
       ∧ Conn.read ⟨rds, rp, oi, od⟩ (fuel + 1) k buf .initS = .out .closed buf
       ∧ Conn.read ⟨rds, rp, oi, od⟩ (fuel + 1) k buf (.http1 ⟨.parse, w, ka⟩)
           = .out .closed buf) := by
  intro rds rp oi od k fuel buf w ka h1
  have hp : Conn.parse ⟨rds, rp, oi, od⟩ k buf = (.error (.io .unexpectedEof), buf) := by
    simp [Conn.parse, Buffer.read_from, h1]
  refine ⟨hp, ?_, ?_⟩
  · simp only [Conn.read]
    rw [hp]
  · simp only [Conn.read]
    rw [hp]

/-- C8 witness: a single transport read of 417792 bytes on an empty
buffer with a parser that still needs more bytes drives the Init state
to Closed. -/
theorem buffer_cap_too_large_closes_witness :
    List.replicate 417792 (71 : Nat) ≠ []
    ∧ MAX_BUFFER_SIZE ≤ (([] : List Nat) ++ List.replicate 417792 (71 : Nat)).length
    ∧ Conn.read ⟨fun _ => .ok (List.replicate 417792 71), fun _ => .ok none,
          fun _ => .wait, fun d b => (.wait, d, b)⟩ 1 0 ⟨[]⟩ .initS
        = .out .closed ⟨[] ++ List.replicate 417792 71⟩ := by
  have hlr : (List.replicate 417792 (71 : Nat)).length = 417792 :=
    List.length_replicate 417792 71
  have hne : List.replicate 417792 (71 : Nat) ≠ [] := by
    intro h
    rw [h] at hlr
    simp at hlr
  have hle : MAX_BUFFER_SIZE ≤ (([] : List Nat) ++ List.replicate 417792 (71 : Nat)).length := by
    rw [List.nil_append, List.length_replicate]
    decide
  exact ⟨hne, hle,
    (buffer_cap_too_large_closes.2 _ _ _ _ 0 0 ⟨[]⟩ _ .head true rfl hne rfl hle).2.1⟩

/-- C10 witness: the transport reports EOF while the buffer already
holds bytes a parser would accept as a complete head; the connection
still closes. -/
theorem parse_eof_closes_witness :
    ((fun _ : Nat => (Except.ok [] : Except IoErrKind (List Nat))) 0 = .ok [])
    ∧ Conn.read ⟨fun _ => .ok [],
          fun _ => .ok (some (⟨.http11, (Method.get, "/"), ⟨none, none, none, false⟩⟩, 3)),
          fun _ => .wait, fun d b => (.wait, d, b)⟩
        1 0 ⟨[71, 69, 84]⟩ .initS = .out .closed ⟨[71, 69, 84]⟩ :=
  ⟨rfl, (parse_eof_closes _ _ _ _ 0 0 ⟨[71, 69, 84]⟩ .head true rfl).2.1⟩
